import Mathlib

/-!
Shallow embedding of src/utils.ts of syzoj-ng-judge.

The file embeds the logic of the module: the retry/timeout/stream structure
of the download routine, the limited file reader, the safe path join and the
keep-alive agent configuration.  External runtime behaviour (the remote
server, axios, Node streams and timers) is parameterised by a SourceBehavior
value describing how one attempt unfolds; the translation of an abort into a
rejection of the pending attempt follows the cancellation model of the
specification, everything else follows the source.
-/

/-- How the external world behaves during one attempt of the download loop.
Either the request itself rejects after dur milliseconds with no response
(no timer exists then, since the code arms the timer only after the awaited
request resolves), or the request never resolves at all, or a response
arrives (modelled as arriving immediately) and the body stream either
finishes after bodyDur milliseconds having written body, or the write stream
errors after errDur milliseconds having written the bytes written; sofar is
what is on disk if the attempt is aborted mid-stream. -/
inductive SourceBehavior where
  | requestError (cause : String) (dur : Nat)
  | noResponse
  | responds (bodyDur : Nat) (body : String) (sofar : String)
  | respondsWriteError (errDur : Nat) (cause : String) (written : String)
deriving DecidableEq

/-- Result of one attempt: either the awaited attempt settles (resolve or
reject) leaving some bytes in the destination file, or it never settles.
The aborted flag mirrors abortController.signal.aborted at the end of the
attempt, and cause mirrors the JavaScript value the attempt rejected with
(none models rejecting with undefined, as the write-stream error handler
does). -/
inductive AttemptResult where
  | completedOk (elapsed : Nat) (contents : String)
  | completedFail (aborted : Bool) (cause : Option String) (elapsed : Nat) (contents : String)
  | neverSettles
deriving DecidableEq

/-- fs.createWriteStream(destination) opens the destination with default
flags, truncating whatever content it had. -/
def truncateOpen (_prev : String) : String := ""

/-- One iteration of the download loop body, lines 138-167 of utils.ts:
open the destination (truncating), await axios; on a response arm the
timeout timer and pipe the body into the file stream, resolving on finish
and rejecting on error; a timer that fires aborts the request, which makes
the pending attempt reject with the abort flag set.  The timer fires only
if the stream has not settled within timeoutMs, and a request that fails
or hangs before any response never arms the timer at all. -/
def runAttempt (timeoutMs : Nat) (prev : String) : SourceBehavior → AttemptResult
  | .requestError cause dur => .completedFail false (some cause) dur (truncateOpen prev)
  | .noResponse => .neverSettles
  | .responds bodyDur body sofar =>
      if bodyDur < timeoutMs then .completedOk bodyDur (truncateOpen prev ++ body)
      else .completedFail true none timeoutMs (truncateOpen prev ++ sofar)
  | .respondsWriteError errDur _cause written =>
      if errDur < timeoutMs then .completedFail false none errDur (truncateOpen prev ++ written)
      else .completedFail true none timeoutMs (truncateOpen prev ++ written)

/-- The two configuration values the download routine reads:
config.downloadRetry and config.downloadTimeout. -/
structure DlConfig where
  downloadRetry : Nat
  downloadTimeout : Nat
deriving DecidableEq

/-- Prefix of the timeout failure message of utils.ts line 173. -/
def timeoutMsgPre (description : String) : String :=
  "Failed to download " ++ description ++ ": timed-out after "

/-- Suffix of the timeout failure message of utils.ts line 173. -/
def timeoutMsgPost (cfg : DlConfig) : String :=
  "ms for " ++ toString cfg.downloadRetry ++ " times"

/-- The message of the error thrown when the final attempt was aborted by
the timeout timer. -/
def timeoutMessage (description : String) (cfg : DlConfig) : String :=
  timeoutMsgPre description ++ toString cfg.downloadTimeout ++ timeoutMsgPost cfg

/-- JavaScript string interpolation of the caught value: interpolating
undefined yields the string undefined. -/
def jsString : Option String → String
  | some s => s
  | none => "undefined"

/-- The message of the error thrown when the final attempt failed without
an abort, utils.ts line 178. -/
def failMessage (description : String) (cause : Option String) : String :=
  "Failed to download " ++ description ++ ": " ++ jsString cause

/-- Overall result of a download call: the returned promise resolves,
rejects with an error message, or never settles.  contacts counts how many
times the network was contacted (one axios call per loop iteration),
elapsed sums the attempt durations, contents is the final state of the
destination file. -/
inductive DownloadResult where
  | resolves (contacts : Nat) (elapsed : Nat) (contents : String)
  | rejects (msg : String) (contacts : Nat) (elapsed : Nat) (contents : String)
  | hangs
deriving DecidableEq

/-- Account one more network contact and d more milliseconds on top of the
result of the remaining iterations. -/
def bump (d : Nat) : DownloadResult → DownloadResult
  | .resolves n e c => .resolves (n + 1) (e + d) c
  | .rejects m n e c => .rejects m (n + 1) (e + d) c
  | .hangs => .hangs

/-- The for loop of utils.ts lines 137-183, for retry = downloadRetry - 1
down to 0: the budget argument is retry + 1 (number of iterations still to
run), i is the index of the current attempt (0-based) used to select the
behaviour of the external world, prev is the destination content before the
iteration.  A successful attempt breaks out of the loop; a failed attempt
rethrows on the final iteration (retry = 0, i.e. budget 1) and is otherwise
swallowed by continue. -/
def goDownload (cfg : DlConfig) (description : String) (beh : Nat → SourceBehavior) :
    Nat → Nat → String → DownloadResult
  | 0, _, prev => .resolves 0 0 prev
  | b + 1, i, prev =>
    match runAttempt cfg.downloadTimeout prev (beh i) with
    | .completedOk d c => .resolves 1 d c
    | .neverSettles => .hangs
    | .completedFail aborted cause d c =>
      if b = 0 then
        .rejects (if aborted then timeoutMessage description cfg else failMessage description cause) 1 d c
      else bump d (goDownload cfg description beh b (i + 1) c)

/-- The exported download function: run the loop with the configured retry
budget starting at attempt 0 on a destination currently holding initial. -/
def runDownload (cfg : DlConfig) (description : String) (beh : Nat → SourceBehavior)
    (initial : String) : DownloadResult :=
  goDownload cfg description beh cfg.downloadRetry 0 initial

/-- The promise resolved. -/
def DownloadResult.succeeded : DownloadResult → Bool
  | .resolves _ _ _ => true
  | _ => false

/-- The promise rejected. -/
def DownloadResult.failed : DownloadResult → Bool
  | .rejects _ _ _ _ => true
  | _ => false

/-- Number of axios calls made. -/
def DownloadResult.contacts : DownloadResult → Nat
  | .resolves n _ _ => n
  | .rejects _ n _ _ => n
  | .hangs => 0

/-- The error message, when the promise rejected. -/
def DownloadResult.errorMsg : DownloadResult → Option String
  | .rejects m _ _ _ => some m
  | _ => none

/-- Final destination content, when the call settled. -/
def DownloadResult.finalContents : DownloadResult → Option String
  | .resolves _ _ c => some c
  | .rejects _ _ _ c => some c
  | .hangs => none

/-- The attempt settles with a failure (it is caught by the catch block,
possibly to be retried). -/
def completesFail (timeoutMs : Nat) : SourceBehavior → Bool
  | .requestError _ _ => true
  | .noResponse => false
  | .responds bodyDur _ _ => decide (timeoutMs ≤ bodyDur)
  | .respondsWriteError _ _ _ => true

/-- The attempt settles successfully within the timeout. -/
def succeedsIn (timeoutMs : Nat) : SourceBehavior → Bool
  | .responds bodyDur _ _ => decide (bodyDur < timeoutMs)
  | _ => false

/-- The attempt is aborted by the timeout timer: a response arrived but the
stream did not settle within timeoutMs. -/
def timesOut (timeoutMs : Nat) : SourceBehavior → Bool
  | .responds bodyDur _ _ => decide (timeoutMs ≤ bodyDur)
  | .respondsWriteError errDur _ _ => decide (timeoutMs ≤ errDur)
  | _ => false

/-- Wall-clock duration of one attempt. -/
def attemptElapsed (timeoutMs : Nat) (prev : String) (x : SourceBehavior) : Nat :=
  match runAttempt timeoutMs prev x with
  | .completedOk d _ => d
  | .completedFail _ _ d _ => d
  | .neverSettles => 0

/-- Destination content after one attempt. -/
def attemptContents (timeoutMs : Nat) (prev : String) (x : SourceBehavior) : String :=
  match runAttempt timeoutMs prev x with
  | .completedOk _ c => c
  | .completedFail _ _ _ c => c
  | .neverSettles => prev

/-- Observable events inside one attempt, in order of occurrence: the
destination is opened, the request is issued, and only once the awaited
request has resolved is the one-shot timer armed (utils.ts line 152); the
timer then either fires (aborting the request) or is cleared by the finish
or error handler of the file stream; streamClose records the write stream
closing itself on flush on the success path; finallyClose is the
fileStream.close() of the finally block. -/
inductive AttemptEvent where
  | openDest
  | issueRequest
  | armTimer
  | timerFire
  | timerClear
  | streamClose
  | finallyClose
deriving DecidableEq

/-- The ordered event trace of one attempt, or none when the attempt never
settles (the finally block of an await that never resolves never runs). -/
def attemptTrace (timeoutMs : Nat) : SourceBehavior → Option (List AttemptEvent)
  | .requestError _ _ => some [.openDest, .issueRequest, .finallyClose]
  | .noResponse => none
  | .responds bodyDur _ _ =>
      if bodyDur < timeoutMs then
        some [.openDest, .issueRequest, .armTimer, .streamClose, .timerClear, .finallyClose]
      else
        some [.openDest, .issueRequest, .armTimer, .timerFire, .finallyClose]
  | .respondsWriteError errDur _ _ =>
      if errDur < timeoutMs then
        some [.openDest, .issueRequest, .armTimer, .timerClear, .finallyClose]
      else
        some [.openDest, .issueRequest, .armTimer, .timerFire, .finallyClose]

/-- The timeout timer was armed during the attempt. -/
def timerArmedB (timeoutMs : Nat) (x : SourceBehavior) : Bool :=
  match attemptTrace timeoutMs x with
  | some tr => tr.contains .armTimer
  | none => false

/-- The timeout timer fired during the attempt. -/
def timerFired (timeoutMs : Nat) (x : SourceBehavior) : Bool :=
  match attemptTrace timeoutMs x with
  | some tr => tr.contains .timerFire
  | none => false

/-- The timeout timer was cancelled (clearTimeout) during the attempt. -/
def timerCleared (timeoutMs : Nat) (x : SourceBehavior) : Bool :=
  match attemptTrace timeoutMs x with
  | some tr => tr.contains .timerClear
  | none => false

/-- A response (headers) arrives for this attempt, so the code reaches the
line that arms the timer. -/
def headersArrive : SourceBehavior → Bool
  | .responds _ _ _ => true
  | .respondsWriteError _ _ _ => true
  | _ => false

/-- State of the destination writer handle of one attempt. -/
inductive HandleState where
  | noHandle
  | openH
  | closedH
deriving DecidableEq

/-- Effect of an attempt event on the writer handle, together with a count
of errors raised by handle operations.  Closing an already-closed handle is
a no-op in Node (the close callback receives no error), so it moves to
closedH without raising anything. -/
def stepHandle : HandleState × Nat → AttemptEvent → HandleState × Nat
  | (_, e), .openDest => (.openH, e)
  | (_, e), .streamClose => (.closedH, e)
  | (_, e), .finallyClose => (.closedH, e)
  | (s, e), _ => (s, e)

/-- Run a trace against the writer handle, starting with no handle and no
errors. -/
def runHandle (tr : List AttemptEvent) : HandleState × Nat :=
  tr.foldl stepHandle (.noHandle, 0)

/-- The options object passed to both keep-alive agents, utils.ts lines
130-132: a socket timeout of one hour. -/
structure AgentOptions where
  timeout : Nat
deriving DecidableEq

/-- agentOptions of utils.ts: timeout 60 * 60 * 1000 milliseconds. -/
def agentOptions : AgentOptions :=
  { timeout := 60 * 60 * 1000 }

/-- The pair of keep-alive agents created once by the IIFE wrapping
download, shared by every axios call the returned closure ever makes. -/
structure Pool where
  httpAgent : AgentOptions
  httpsAgent : AgentOptions
deriving DecidableEq

/-- The single process-wide pool value. -/
def thePool : Pool :=
  { httpAgent := agentOptions, httpsAgent := agentOptions }

/-- Duration of a transfer lasting two hours, in milliseconds: a concrete
multi-hour single-transfer duration. -/
def twoHourTransferMs : Nat := 2 * 60 * 60 * 1000

/-- The argument object of the axios call of utils.ts lines 144-150, as
built for the attempt with the given index: a streaming request against url
carrying the abort signal of the attempt and the two shared agents. -/
structure AxiosRequest where
  url : String
  responseTypeStream : Bool
  signalOfAttempt : Nat
  pool : Pool
deriving DecidableEq

/-- Build the axios argument object for one attempt. -/
def mkAxiosRequest (url : String) (attemptIndex : Nat) : AxiosRequest :=
  { url := url, responseTypeStream := true, signalOfAttempt := attemptIndex, pool := thePool }

/-- Structural UTF-8 decoder over a byte list: pending is the number of
continuation bytes still expected, acc the accumulated code point so far.
Invalid or truncated sequences produce the replacement character, as
Buffer.toString does. -/
def utf8DecodeAux : List Nat → Nat → Nat → List Char
  | [], 0, _ => []
  | [], _ + 1, _ => [Char.ofNat 65533]
  | b :: rest, 0, _ =>
      if b < 128 then Char.ofNat b :: utf8DecodeAux rest 0 0
      else if 192 ≤ b ∧ b < 224 then utf8DecodeAux rest 1 (b % 32)
      else if 224 ≤ b ∧ b < 240 then utf8DecodeAux rest 2 (b % 16)
      else if 240 ≤ b ∧ b < 248 then utf8DecodeAux rest 3 (b % 8)
      else Char.ofNat 65533 :: utf8DecodeAux rest 0 0
  | b :: rest, p + 1, acc =>
      if 128 ≤ b ∧ b < 192 then
        if p = 0 then Char.ofNat (acc * 64 + b % 64) :: utf8DecodeAux rest 0 0
        else utf8DecodeAux rest p (acc * 64 + b % 64)
      else Char.ofNat 65533 :: utf8DecodeAux rest 0 0

/-- buf.toString("utf8", 0, bytesRead): decode a byte list as UTF-8. -/
def utf8OfBytes (bs : List Nat) : String :=
  String.mk (utf8DecodeAux bs 0 0)

/-- What the file system holds at one path for the purposes of
readFileLimited: the byte content, and injected failures of the open, stat
and read calls (openErr carries the error code the open rejects with). -/
structure FileSpec where
  bytes : List Nat
  openErr : Option String
  statErr : Bool
  readErr : Bool

/-- A file system: a map from paths to file specifications; none means the
path does not exist, so open rejects with code ENOENT. -/
structure FsModel where
  files : String → Option FileSpec

/-- Outcome of readFileLimited: the returned string (the function never
rejects), plus whether a handle was obtained and whether it was closed by
the finally block. -/
structure ReadOutcome where
  result : String
  openedHandle : Bool
  closedHandle : Bool
deriving DecidableEq

/-- readFileLimited of utils.ts lines 64-83: open the file (a missing file
returns the empty string, any other open error is rethrown and caught by
the outer catch which also returns the empty string); stat it, allocate a
buffer of min(size, lengthLimit) bytes, read that many bytes from offset 0
and decode them as UTF-8; any stat or read error yields the empty string;
the finally block closes the handle whenever one was obtained. -/
def readFileLimited (fsm : FsModel) (filePath : String) (lengthLimit : Nat) : ReadOutcome :=
  match fsm.files filePath with
  | none => { result := "", openedHandle := false, closedHandle := false }
  | some f =>
    match f.openErr with
    | some _ => { result := "", openedHandle := false, closedHandle := false }
    | none =>
      if f.statErr then { result := "", openedHandle := true, closedHandle := true }
      else if f.readErr then { result := "", openedHandle := true, closedHandle := true }
      else
        { result := utf8OfBytes (f.bytes.take (min f.bytes.length lengthLimit)),
          openedHandle := true, closedHandle := true }

/-- Split a character list on slashes, accumulating the current segment in
reverse. -/
def splitSegsAux : List Char → List Char → List (List Char)
  | [], cur => [cur.reverse]
  | c :: rest, cur =>
      if c = '/' then cur.reverse :: splitSegsAux rest []
      else splitSegsAux rest (c :: cur)

/-- Split a path string on the slash separator (posix). -/
def splitSlash (s : String) : List String :=
  (splitSegsAux s.data []).map String.mk

/-- The path is absolute (starts with a slash). -/
def isAbsolutePath (s : String) : Bool :=
  match s.data with
  | '/' :: _ => true
  | _ => false

/-- The path ends with a slash. -/
def endsSlash (s : String) : Bool :=
  match s.data.getLast? with
  | some '/' => true
  | _ => false

/-- Resolve the segments of a path against a stack of kept segments (held
in reverse): empty and dot segments vanish, a dot-dot segment pops the last
kept segment unless the kept stack is empty or itself topped by a dot-dot,
in which case it is dropped for an absolute path and kept for a relative
one. -/
def normSegsAux (isAbs : Bool) : List String → List String → List String
  | stack, [] => stack
  | stack, seg :: rest =>
    if seg = "" ∨ seg = "." then normSegsAux isAbs stack rest
    else if seg = ".." then
      match stack with
      | [] => normSegsAux isAbs (if isAbs then [] else [".."]) rest
      | top :: tl =>
          if top = ".." then normSegsAux isAbs (".." :: stack) rest
          else normSegsAux isAbs tl rest
    else normSegsAux isAbs (seg :: stack) rest

/-- Join segments back with slashes. -/
def joinSegs : List String → String
  | [] => ""
  | [s] => s
  | s :: rest => s ++ "/" ++ joinSegs rest

/-- path.normalize for posix paths: resolve dot and dot-dot segments and
collapse separators, keeping a leading slash for an absolute path and a
trailing slash when the input had one; an empty result is the current
directory. -/
def normalizePath (p : String) : String :=
  if p = "" then "."
  else
    let isAbs := isAbsolutePath p
    let body := joinSegs (normSegsAux isAbs [] (splitSlash p)).reverse
    if isAbs then
      if body = "" then "/"
      else "/" ++ body ++ (if endsSlash p then "/" else "")
    else
      if body = "" then "." else body ++ (if endsSlash p then "/" else "")

/-- path.join: concatenate the non-empty arguments with slashes and
normalize; with nothing to join the result is the current directory. -/
def joinList (paths : List String) : String :=
  let joined := joinSegs (paths.filter (fun s => s ≠ ""))
  if joined = "" then "." else normalizePath joined

/-- The normalized child path starts with two dots, the escape condition
checked by doSafelyJoin (childPath.startsWith partially spelled out over the
character data). -/
def startsDotDot (s : String) : Bool :=
  match s.data with
  | '.' :: '.' :: _ => true
  | _ => false

/-- doSafelyJoin of utils.ts lines 25-42: normalize the join of the given
segments; if the result starts with two dots the join is rejected with an
error naming the base path, otherwise it is the join of the base path with
the normalized child. -/
def doSafelyJoin (basePath : String) (paths : List String) : Except String String :=
  let childPath := normalizePath (joinList paths)
  if startsDotDot childPath then
    .error ("Invalid path join: " ++ basePath)
  else
    .ok (joinList [basePath, childPath])

/-- A mapped path: the same logical path seen from outside and inside the
sandbox. -/
structure MappedPath where
  outside : String
  inside : String
deriving DecidableEq

/-- The MappedPath overload of safelyJoinPath: join the same segments onto
the inside and the outside base. -/
def safelyJoinPathMapped (basePath : MappedPath) (paths : List String) : Except String MappedPath :=
  match doSafelyJoin basePath.inside paths, doSafelyJoin basePath.outside paths with
  | .ok i, .ok o => .ok { outside := o, inside := i }
  | .error e, _ => .error e
  | _, .error e => .error e

/-- The join succeeded. -/
def joinOk : Except String String → Bool
  | .ok _ => true
  | .error _ => false

/-! ### Helper lemmas -/

theorem empty_str_append (s : String) : "" ++ s = s := by
  obtain ⟨l⟩ := s
  rfl

theorem strAppend_assoc (a b c : String) : a ++ b ++ c = a ++ (b ++ c) := by
  obtain ⟨la⟩ := a
  obtain ⟨lb⟩ := b
  obtain ⟨lc⟩ := c
  show String.mk (la ++ lb ++ lc) = String.mk (la ++ (lb ++ lc))
  rw [List.append_assoc]

theorem bump_succeeded (d : Nat) (r : DownloadResult) : (bump d r).succeeded = r.succeeded := by
  cases r <;> rfl

theorem bump_failed (d : Nat) (r : DownloadResult) : (bump d r).failed = r.failed := by
  cases r <;> rfl

theorem bump_errorMsg (d : Nat) (r : DownloadResult) : (bump d r).errorMsg = r.errorMsg := by
  cases r <;> rfl

theorem bump_finalContents (d : Nat) (r : DownloadResult) :
    (bump d r).finalContents = r.finalContents := by
  cases r <;> rfl

theorem bump_contacts (d : Nat) (r : DownloadResult) (h : r ≠ .hangs) :
    (bump d r).contacts = r.contacts + 1 := by
  cases r with
  | resolves n e c => rfl
  | rejects m n e c => rfl
  | hangs => exact absurd rfl h

theorem bump_contacts_eq (d1 d2 : Nat) (r : DownloadResult) :
    (bump d1 r).contacts = (bump d2 r).contacts := by
  cases r <;> rfl

theorem ne_hangs_of_settled (r : DownloadResult)
    (h : r.succeeded = true ∨ r.failed = true) : r ≠ .hangs := by
  cases r with
  | resolves n e c => intro hc; exact DownloadResult.noConfusion hc
  | rejects m n e c => intro hc; exact DownloadResult.noConfusion hc
  | hangs => simp [DownloadResult.succeeded, DownloadResult.failed] at h

/-- The cause a failing attempt rejects with: only a rejection of the axios
request itself carries the underlying error. -/
def failCause : SourceBehavior → Option String
  | .requestError c _ => some c
  | _ => none

theorem runAttempt_prev_irrel (timeoutMs : Nat) (p1 p2 : String) (x : SourceBehavior) :
    runAttempt timeoutMs p1 x = runAttempt timeoutMs p2 x := by
  cases x <;> simp [runAttempt, truncateOpen]

theorem runAttempt_fail (timeoutMs : Nat) (prev : String) (x : SourceBehavior)
    (h : completesFail timeoutMs x = true) :
    runAttempt timeoutMs prev x =
      .completedFail (timesOut timeoutMs x) (failCause x)
        (attemptElapsed timeoutMs prev x) (attemptContents timeoutMs prev x) := by
  cases x with
  | requestError c dur => rfl
  | noResponse => simp [completesFail] at h
  | responds d body sofar =>
    simp only [completesFail, decide_eq_true_eq] at h
    simp [runAttempt, timesOut, failCause, attemptElapsed, attemptContents, Nat.not_lt.2 h,
      decide_eq_true h]
  | respondsWriteError d c w =>
    by_cases hd : d < timeoutMs
    · simp [runAttempt, timesOut, failCause, attemptElapsed, attemptContents, hd,
        decide_eq_false (Nat.not_le.2 hd)]
    · simp [runAttempt, timesOut, failCause, attemptElapsed, attemptContents, hd,
        decide_eq_true (Nat.not_lt.1 hd)]

theorem completesFail_of_timesOut (timeoutMs : Nat) (x : SourceBehavior)
    (h : timesOut timeoutMs x = true) : completesFail timeoutMs x = true := by
  cases x <;> simp_all [timesOut, completesFail]

theorem attempt_timesOut (timeoutMs : Nat) (prev : String) (x : SourceBehavior)
    (h : timesOut timeoutMs x = true) :
    ∃ c, runAttempt timeoutMs prev x = .completedFail true none timeoutMs c := by
  cases x with
  | requestError c dur => simp [timesOut] at h
  | noResponse => simp [timesOut] at h
  | responds d body sofar =>
    simp only [timesOut, decide_eq_true_eq] at h
    exact ⟨truncateOpen prev ++ sofar, by simp [runAttempt, Nat.not_lt.2 h]⟩
  | respondsWriteError d c w =>
    simp only [timesOut, decide_eq_true_eq] at h
    exact ⟨truncateOpen prev ++ w, by simp [runAttempt, Nat.not_lt.2 h]⟩

theorem goDownload_congr (cfg : DlConfig) (desc : String) (beh1 beh2 : Nat → SourceBehavior) :
    ∀ b i prev, (∀ j, i ≤ j → beh1 j = beh2 j) →
      goDownload cfg desc beh1 b i prev = goDownload cfg desc beh2 b i prev := by
  intro b
  induction b with
  | zero => intro i prev _; rfl
  | succ b ih =>
    intro i prev hag
    simp only [goDownload]
    rw [hag i (Nat.le_refl i)]
    cases runAttempt cfg.downloadTimeout prev (beh2 i) with
    | completedOk d c => rfl
    | neverSettles => rfl
    | completedFail a cz d c =>
      by_cases hb : b = 0
      · simp [hb]
      · simp only [if_neg hb]
        rw [ih (i + 1) c (fun j hj => hag j (by omega))]

theorem goDownload_prev_irrel (cfg : DlConfig) (desc : String) (beh : Nat → SourceBehavior)
    (b i : Nat) (p1 p2 : String) (hb : 1 ≤ b) :
    goDownload cfg desc beh b i p1 = goDownload cfg desc beh b i p2 := by
  cases b with
  | zero => omega
  | succ b => simp only [goDownload, runAttempt_prev_irrel cfg.downloadTimeout p1 p2 (beh i)]

theorem goDownload_scenario (cfg : DlConfig) (desc : String) (beh : Nat → SourceBehavior)
    (f : Nat)
    (hf : ∀ j, j < f → completesFail cfg.downloadTimeout (beh j) = true)
    (hs : ∀ j, f ≤ j → succeedsIn cfg.downloadTimeout (beh j) = true) :
    ∀ b i prev, 1 ≤ b →
      ((goDownload cfg desc beh b i prev).succeeded = decide (f < i + b)) ∧
      ((goDownload cfg desc beh b i prev).failed = decide (i + b ≤ f)) ∧
      ((goDownload cfg desc beh b i prev).contacts = max 1 (min (f + 1 - i) b)) := by
  intro b
  induction b with
  | zero => intro i prev h1; omega
  | succ b ih =>
    intro i prev _
    by_cases hif : f ≤ i
    · have hsi := hs i hif
      cases hx : beh i with
      | requestError c dur => rw [hx] at hsi; simp [succeedsIn] at hsi
      | noResponse => rw [hx] at hsi; simp [succeedsIn] at hsi
      | respondsWriteError d c w => rw [hx] at hsi; simp [succeedsIn] at hsi
      | responds d body sofar =>
        rw [hx] at hsi
        simp only [succeedsIn, decide_eq_true_eq] at hsi
        simp only [goDownload, hx, runAttempt, if_pos hsi]
        refine ⟨?_, ?_, ?_⟩
        · simp only [DownloadResult.succeeded]
          exact (decide_eq_true (by omega)).symm
        · simp only [DownloadResult.failed]
          exact (decide_eq_false (by omega)).symm
        · simp only [DownloadResult.contacts]
          omega
    · have hfi := hf i (by omega)
      have hra := runAttempt_fail cfg.downloadTimeout prev (beh i) hfi
      by_cases hb : b = 0
      · subst hb
        refine ⟨?_, ?_, ?_⟩ <;>
          simp [goDownload, hra, DownloadResult.succeeded, DownloadResult.failed,
            DownloadResult.contacts] <;>
          omega
      · obtain ⟨ihs, ihf, ihc⟩ :=
          ih (i + 1) (attemptContents cfg.downloadTimeout prev (beh i)) (by omega)
      
        have hne : goDownload cfg desc beh b (i + 1)
            (attemptContents cfg.downloadTimeout prev (beh i)) ≠ .hangs := by
          apply ne_hangs_of_settled
          rcases Nat.lt_or_ge f (i + 1 + b) with h2 | h2
          · left; rw [ihs]; exact decide_eq_true h2
          · right; rw [ihf]; exact decide_eq_true (by omega)
        simp only [goDownload, hra, if_neg hb]
        refine ⟨?_, ?_, ?_⟩
        · rw [bump_succeeded, ihs]
          simp only [decide_eq_decide]
          omega
        · rw [bump_failed, ihf]
          simp only [decide_eq_decide]
          omega
        · rw [bump_contacts _ _ hne, ihc]
          omega

theorem goDownload_timesOut (cfg : DlConfig) (desc : String) (beh : Nat → SourceBehavior)
    (h : ∀ j, timesOut cfg.downloadTimeout (beh j) = true) :
    ∀ b i prev, 1 ≤ b → ∃ c, goDownload cfg desc beh b i prev =
      .rejects (timeoutMessage desc cfg) b (b * cfg.downloadTimeout) c := by
  intro b
  induction b with
  | zero => intro i prev h1; omega
  | succ b ih =>
    intro i prev _
    obtain ⟨cc, hcc⟩ := attempt_timesOut cfg.downloadTimeout prev (beh i) (h i)
    by_cases hb : b = 0
    · subst hb
      refine ⟨cc, ?_⟩
      simp [goDownload, hcc]
    · obtain ⟨c2, hc2⟩ := ih (i + 1) cc (by omega)
      refine ⟨c2, ?_⟩
      simp only [goDownload, hcc, if_neg hb]
      rw [hc2]
      simp [bump, Nat.succ_mul]

theorem goDownload_msg_shape (cfg : DlConfig) (desc : String) (beh : Nat → SourceBehavior) :
    ∀ b i prev m, (goDownload cfg desc beh b i prev).errorMsg = some m →
      m = timeoutMessage desc cfg ∨ ∃ cz, m = failMessage desc cz := by
  intro b
  induction b with
  | zero => intro i prev m h; simp [goDownload, DownloadResult.errorMsg] at h
  | succ b ih =>
    intro i prev m h
    simp only [goDownload] at h
    cases hr : runAttempt cfg.downloadTimeout prev (beh i) with
    | completedOk d c => rw [hr] at h; simp [DownloadResult.errorMsg] at h
    | neverSettles => rw [hr] at h; simp [DownloadResult.errorMsg] at h
    | completedFail a cz d c =>
      rw [hr] at h
      by_cases hb : b = 0
      · subst hb
        simp [DownloadResult.errorMsg] at h
        cases a with
        | true => left; simp at h; exact h.symm
        | false => right; exact ⟨cz, by simp at h; exact h.symm⟩
      · simp only [if_neg hb, bump_errorMsg] at h
        exact ih (i + 1) c m h

/-! ### Claim theorems -/

/-- C1: for a source that fails on its first f attempts (with failures that
settle) and then succeeds, and any configured retry count of at least one,
download resolves iff f is less than the retry count, rejects iff f is at
least the retry count, and contacts the network exactly min (f + 1) maxRetries
times; in particular a success breaks out of the loop at once, so only f + 1
contacts happen even when budget remains. -/
theorem download_bounded_retry (cfg : DlConfig) (desc : String) (beh : Nat → SourceBehavior)
    (f : Nat) (initial : String) (hR : 1 ≤ cfg.downloadRetry)
    (hf : ∀ j, j < f → completesFail cfg.downloadTimeout (beh j) = true)
    (hs : ∀ j, f ≤ j → succeedsIn cfg.downloadTimeout (beh j) = true) :
    ((runDownload cfg desc beh initial).succeeded = true ↔ f < cfg.downloadRetry) ∧
    ((runDownload cfg desc beh initial).failed = true ↔ cfg.downloadRetry ≤ f) ∧
    (runDownload cfg desc beh initial).contacts = min (f + 1) cfg.downloadRetry := by
  obtain ⟨h1, h2, h3⟩ :=
    goDownload_scenario cfg desc beh f hf hs cfg.downloadRetry 0 initial hR
  rw [runDownload] at *
  refine ⟨?_, ?_, ?_⟩
  · rw [h1]
    simp only [decide_eq_true_eq]
    omega
  · rw [h2]
    simp only [decide_eq_true_eq]
    omega
  · rw [h3]
    omega

/-- Configuration used by concrete witnesses: three retries, a 100ms
per-attempt timeout. -/
def cfgW : DlConfig := { downloadRetry := 3, downloadTimeout := 100 }

/-- Witness source: the first attempt is refused, every later one streams
a small body well within the timeout. -/
def behW : Nat → SourceBehavior := fun j =>
  if j < 1 then .requestError "boom" 5 else .responds 10 "hello" ""

/-- Concrete instance of C1: one failure then success under three retries. -/
theorem download_bounded_retry_witness :
    ((runDownload cfgW "d" behW "").succeeded = true ↔ 1 < cfgW.downloadRetry) ∧
    ((runDownload cfgW "d" behW "").failed = true ↔ cfgW.downloadRetry ≤ 1) ∧
    (runDownload cfgW "d" behW "").contacts = min (1 + 1) cfgW.downloadRetry :=
  download_bounded_retry cfgW "d" behW 1 "" (by decide)
    (fun j hj => by
      have hj0 : j = 0 := by omega
      subst hj0
      decide)
    (fun j hj => by
      simp only [behW, if_neg (by omega : ¬ j < 1)]
      decide)

/-- C5: a failing attempt that is not the last is fully absorbed: the
download result is exactly the result of the remaining iterations with one
more network contact and the attempt duration added, and replacing the kind
of that failure (request rejection, stream write error or timeout) by any
other settling failure changes neither resolution, rejection, contact
count, error message nor final file content. -/
theorem download_error_absorption (cfg : DlConfig) (desc : String) (beh : Nat → SourceBehavior)
    (prev : String) (b i : Nat) (x y : SourceBehavior)
    (hx : completesFail cfg.downloadTimeout x = true)
    (hy : completesFail cfg.downloadTimeout y = true) :
    (goDownload cfg desc (Function.update beh i x) (b + 2) i prev =
      bump (attemptElapsed cfg.downloadTimeout prev x)
        (goDownload cfg desc (Function.update beh i x) (b + 1) (i + 1)
          (attemptContents cfg.downloadTimeout prev x))) ∧
    ((goDownload cfg desc (Function.update beh i x) (b + 2) i prev).succeeded =
      (goDownload cfg desc (Function.update beh i y) (b + 2) i prev).succeeded) ∧
    ((goDownload cfg desc (Function.update beh i x) (b + 2) i prev).failed =
      (goDownload cfg desc (Function.update beh i y) (b + 2) i prev).failed) ∧
    ((goDownload cfg desc (Function.update beh i x) (b + 2) i prev).contacts =
      (goDownload cfg desc (Function.update beh i y) (b + 2) i prev).contacts) ∧
    ((goDownload cfg desc (Function.update beh i x) (b + 2) i prev).errorMsg =
      (goDownload cfg desc (Function.update beh i y) (b + 2) i prev).errorMsg) ∧
    ((goDownload cfg desc (Function.update beh i x) (b + 2) i prev).finalContents =
      (goDownload cfg desc (Function.update beh i y) (b + 2) i prev).finalContents) := by
  have hstep : ∀ z : SourceBehavior, completesFail cfg.downloadTimeout z = true →
      goDownload cfg desc (Function.update beh i z) (b + 2) i prev =
        bump (attemptElapsed cfg.downloadTimeout prev z)
          (goDownload cfg desc (Function.update beh i z) (b + 1) (i + 1)
            (attemptContents cfg.downloadTimeout prev z)) := by
    intro z hz
    have hra := runAttempt_fail cfg.downloadTimeout prev z hz
    simp only [goDownload, Function.update_same, hra, if_neg (Nat.succ_ne_zero b)]
  have hcont : goDownload cfg desc (Function.update beh i x) (b + 1) (i + 1)
      (attemptContents cfg.downloadTimeout prev x) =
      goDownload cfg desc (Function.update beh i y) (b + 1) (i + 1)
        (attemptContents cfg.downloadTimeout prev y) := by
    rw [goDownload_prev_irrel cfg desc (Function.update beh i x) (b + 1) (i + 1)
      (attemptContents cfg.downloadTimeout prev x)
      (attemptContents cfg.downloadTimeout prev y) (by omega)]
    exact goDownload_congr cfg desc (Function.update beh i x) (Function.update beh i y)
      (b + 1) (i + 1) (attemptContents cfg.downloadTimeout prev y)
      (fun j hj => by
        rw [Function.update_noteq (by omega : j ≠ i), Function.update_noteq (by omega : j ≠ i)])
  refine ⟨hstep x hx, ?_, ?_, ?_, ?_, ?_⟩ <;>
    rw [hstep x hx, hstep y hy, hcont] <;>
    first
      | rw [bump_succeeded, bump_succeeded]
      | rw [bump_failed, bump_failed]
      | exact bump_contacts_eq _ _ _
      | rw [bump_errorMsg, bump_errorMsg]
      | rw [bump_finalContents, bump_finalContents]

/-- Concrete instance of C5: a stream write error and a mid-stream timeout
at attempt 0 are absorbed identically under a budget of three. -/
theorem download_error_absorption_witness :
    (goDownload cfgW "d" (Function.update behW 0 (.respondsWriteError 5 "E" "p")) 3 0 "" =
      bump (attemptElapsed cfgW.downloadTimeout "" (.respondsWriteError 5 "E" "p"))
        (goDownload cfgW "d" (Function.update behW 0 (.respondsWriteError 5 "E" "p")) 2 1
          (attemptContents cfgW.downloadTimeout "" (.respondsWriteError 5 "E" "p")))) ∧
    ((goDownload cfgW "d" (Function.update behW 0 (.respondsWriteError 5 "E" "p")) 3 0 "").succeeded =
      (goDownload cfgW "d" (Function.update behW 0 (.responds 200 "B" "s")) 3 0 "").succeeded) ∧
    ((goDownload cfgW "d" (Function.update behW 0 (.respondsWriteError 5 "E" "p")) 3 0 "").failed =
      (goDownload cfgW "d" (Function.update behW 0 (.responds 200 "B" "s")) 3 0 "").failed) ∧
    ((goDownload cfgW "d" (Function.update behW 0 (.respondsWriteError 5 "E" "p")) 3 0 "").contacts =
      (goDownload cfgW "d" (Function.update behW 0 (.responds 200 "B" "s")) 3 0 "").contacts) ∧
    ((goDownload cfgW "d" (Function.update behW 0 (.respondsWriteError 5 "E" "p")) 3 0 "").errorMsg =
      (goDownload cfgW "d" (Function.update behW 0 (.responds 200 "B" "s")) 3 0 "").errorMsg) ∧
    ((goDownload cfgW "d" (Function.update behW 0 (.respondsWriteError 5 "E" "p")) 3 0 "").finalContents =
      (goDownload cfgW "d" (Function.update behW 0 (.responds 200 "B" "s")) 3 0 "").finalContents) :=
  download_error_absorption cfgW "d" behW "" 1 0
    (.respondsWriteError 5 "E" "p") (.responds 200 "B" "s") (by decide) (by decide)

/-- C6: every attempt truncates the destination on open before contacting
the network, so when some attempt fails (with any settling failure, having
written anything) and the next attempt streams body B to completion within
the timeout, the loop resolves after exactly those two contacts with the
destination holding exactly B — no residue of the earlier partial write. -/
theorem download_overwrite_on_retry (cfg : DlConfig) (desc : String)
    (beh : Nat → SourceBehavior) (prev : String) (b i d : Nat) (B s : String)
    (hfail : completesFail cfg.downloadTimeout (beh i) = true)
    (hnext : beh (i + 1) = .responds d B s)
    (hd : d < cfg.downloadTimeout) :
    truncateOpen prev = "" ∧
    ∃ e, goDownload cfg desc beh (b + 2) i prev = .resolves 2 e B := by
  refine ⟨rfl, ?_⟩
  have hra := runAttempt_fail cfg.downloadTimeout prev (beh i) hfail
  simp only [goDownload, hra, if_neg (Nat.succ_ne_zero b)]
  simp only [goDownload, hnext, runAttempt, if_pos hd, truncateOpen, bump]
  exact ⟨d + attemptElapsed cfg.downloadTimeout prev (beh i), by rw [empty_str_append]⟩

/-- Witness source for C6: attempt 0 errors mid-write leaving part1 on
disk, attempt 1 streams hello. -/
def behC6 : Nat → SourceBehavior := fun j =>
  if j = 0 then .respondsWriteError 5 "E" "part1" else .responds 10 "hello" ""

/-- Concrete instance of C6: the partial write part1 of the failed attempt
is fully replaced by hello. -/
theorem download_overwrite_on_retry_witness :
    truncateOpen "old" = "" ∧
    ∃ e, goDownload cfgW "d" behC6 3 0 "old" = .resolves 2 e "hello" :=
  download_overwrite_on_retry cfgW "d" behC6 "old" 1 0 10 "hello" ""
    (by decide) (by decide) (by decide)

/-- C2 counterexample: an attempt whose request is refused before any
response settles normally (its trace exists), yet its timer neither fires
nor is cancelled — indeed no timer is ever armed, because the code arms the
timer only after the awaited request has resolved, not at attempt start. -/
theorem timeout_guard_counterexample :
    attemptTrace 100 (.requestError "ECONNREFUSED" 5) ≠ none ∧
    timerFired 100 (.requestError "ECONNREFUSED" 5) = false ∧
    timerCleared 100 (.requestError "ECONNREFUSED" 5) = false ∧
    timerArmedB 100 (.requestError "ECONNREFUSED" 5) = false := by
  decide

/-- C2 (amended): the one-shot timer is armed exactly when a response
arrives, and it is armed only after the destination is opened and the
request issued (third, fourth and fifth events of the trace), never at
attempt start; once armed, exactly one of firing and cancellation happens
in the attempt. -/
theorem timeout_guard_amended (timeoutMs : Nat) (x : SourceBehavior) :
    (timerArmedB timeoutMs x = headersArrive x) ∧
    (timerArmedB timeoutMs x = true →
      timerFired timeoutMs x = !timerCleared timeoutMs x) ∧
    (∀ tr, attemptTrace timeoutMs x = some tr → timerArmedB timeoutMs x = true →
      tr.take 3 = [.openDest, .issueRequest, .armTimer]) := by
  cases x with
  | requestError c dur =>
    exact ⟨rfl, fun h => Bool.noConfusion h, fun tr htr h => Bool.noConfusion h⟩
  | noResponse =>
    exact ⟨rfl, fun h => Bool.noConfusion h, fun tr htr => Option.noConfusion htr⟩
  | responds d body sofar =>
    by_cases hd : d < timeoutMs
    · have htrace : attemptTrace timeoutMs (.responds d body sofar) =
          some [.openDest, .issueRequest, .armTimer, .streamClose, .timerClear, .finallyClose] := by
        simp [attemptTrace, hd]
      refine ⟨?_, ?_, ?_⟩
      · simp only [timerArmedB, htrace, headersArrive]
        decide
      · intro _
        simp only [timerFired, timerCleared, htrace]
        decide
      · intro tr htr _
        rw [htrace] at htr
        injection htr with h2
        subst h2
        decide
    · have htrace : attemptTrace timeoutMs (.responds d body sofar) =
          some [.openDest, .issueRequest, .armTimer, .timerFire, .finallyClose] := by
        simp [attemptTrace, hd]
      refine ⟨?_, ?_, ?_⟩
      · simp only [timerArmedB, htrace, headersArrive]
        decide
      · intro _
        simp only [timerFired, timerCleared, htrace]
        decide
      · intro tr htr _
        rw [htrace] at htr
        injection htr with h2
        subst h2
        decide
  | respondsWriteError d c w =>
    by_cases hd : d < timeoutMs
    · have htrace : attemptTrace timeoutMs (.respondsWriteError d c w) =
          some [.openDest, .issueRequest, .armTimer, .timerClear, .finallyClose] := by
        simp [attemptTrace, hd]
      refine ⟨?_, ?_, ?_⟩
      · simp only [timerArmedB, htrace, headersArrive]
        decide
      · intro _
        simp only [timerFired, timerCleared, htrace]
        decide
      · intro tr htr _
        rw [htrace] at htr
        injection htr with h2
        subst h2
        decide
    · have htrace : attemptTrace timeoutMs (.respondsWriteError d c w) =
          some [.openDest, .issueRequest, .armTimer, .timerFire, .finallyClose] := by
        simp [attemptTrace, hd]
      refine ⟨?_, ?_, ?_⟩
      · simp only [timerArmedB, htrace, headersArrive]
        decide
      · intro _
        simp only [timerFired, timerCleared, htrace]
        decide
      · intro tr htr _
        rw [htrace] at htr
        injection htr with h2
        subst h2
        decide

/-- Concrete instance of C2 (amended): a mid-stream timeout fires and is
not cancelled, and the timer was armed as the third event, after the open
and the request. -/
theorem timeout_guard_amended_witness :
    timerFired 100 (.responds 500 "b" "s") = !timerCleared 100 (.responds 500 "b" "s") ∧
    ([AttemptEvent.openDest, .issueRequest, .armTimer, .timerFire, .finallyClose].take 3 =
      [AttemptEvent.openDest, .issueRequest, .armTimer]) :=
  ⟨(timeout_guard_amended 100 (.responds 500 "b" "s")).2.1 (by decide),
   (timeout_guard_amended 100 (.responds 500 "b" "s")).2.2
     [AttemptEvent.openDest, .issueRequest, .armTimer, .timerFire, .finallyClose]
     (by decide) (by decide)⟩

/-- Configuration with two retries and a 100ms timeout, used to exhibit the
hang on a source that never responds. -/
def cfgNever : DlConfig := { downloadRetry := 2, downloadTimeout := 100 }

/-- C3 counterexample: against a source that never responds at all the
download neither fails nor resolves — it hangs forever, because no timer is
armed while the request itself is being awaited; so it does not fail after
maxRetries times the per-attempt timeout as claimed. -/
theorem timeout_precision_counterexample :
    runDownload cfgNever "data" (fun _ => SourceBehavior.noResponse) "" = .hangs ∧
    (runDownload cfgNever "data" (fun _ => SourceBehavior.noResponse) "").failed = false := by
  exact ⟨rfl, rfl⟩

/-- C3 (amended): against a source that responds but whose transfer never
settles within the per-attempt timeout, every attempt is aborted by the
timer after exactly one timeout period, and the download rejects after
maxRetries contacts and maxRetries times the timeout of elapsed time, with
the message naming the configured timeout value. -/
theorem timeout_precision_amended (cfg : DlConfig) (desc : String)
    (beh : Nat → SourceBehavior) (initial : String) (hR : 1 ≤ cfg.downloadRetry)
    (h : ∀ j, timesOut cfg.downloadTimeout (beh j) = true) :
    (∃ c, runDownload cfg desc beh initial =
      .rejects (timeoutMessage desc cfg) cfg.downloadRetry
        (cfg.downloadRetry * cfg.downloadTimeout) c) ∧
    (∃ s t, timeoutMessage desc cfg = s ++ toString cfg.downloadTimeout ++ t) := by
  refine ⟨?_, ⟨timeoutMsgPre desc, timeoutMsgPost cfg, rfl⟩⟩
  rw [runDownload]
  exact goDownload_timesOut cfg desc beh h cfg.downloadRetry 0 initial hR

/-- Concrete instance of C3 (amended): two attempts against a source whose
body never finishes within 100ms reject after 200ms with the timeout
message. -/
theorem timeout_precision_amended_witness :
    (∃ c, runDownload cfgNever "data" (fun _ => .responds 500 "hello" "par") "" =
      .rejects (timeoutMessage "data" cfgNever) cfgNever.downloadRetry
        (cfgNever.downloadRetry * cfgNever.downloadTimeout) c) ∧
    (∃ s t, timeoutMessage "data" cfgNever = s ++ toString cfgNever.downloadTimeout ++ t) :=
  timeout_precision_amended cfgNever "data" (fun _ => .responds 500 "hello" "par") ""
    (by decide) (fun j => rfl)

/-- Single-attempt configuration used by the message counterexamples. -/
def cfgOne : DlConfig := { downloadRetry := 1, downloadTimeout := 100 }

/-- C4 counterexample: when the final attempt fails because the destination
write stream errors, the raised message is the literal string ending in
undefined — the error handler rejects without an argument, so the
underlying cause (here EACCES) is not wrapped, and indeed two runs whose
write errors have different underlying causes raise identical messages. -/
theorem failure_message_counterexample :
    runDownload cfgOne "data" (fun _ => .respondsWriteError 5 "EACCES" "xy") "" =
      .rejects "Failed to download data: undefined" 1 5 "xy" ∧
    runDownload cfgOne "data" (fun _ => .respondsWriteError 5 "EACCES" "xy") "" =
      runDownload cfgOne "data" (fun _ => .respondsWriteError 5 "ENOSPC" "xy") "" := by
  exact ⟨by decide, by decide⟩

/-- C4 (amended): every rejection of download carries one of exactly two
message shapes: the timeout shape, which names both the configured timeout
value and the configured number of attempts, or the generic shape, which
names the description followed by the JavaScript interpolation of the value
the final attempt rejected with — that value carries the underlying cause
only when the request itself rejected; a write-stream failure rejects with
undefined. -/
theorem failure_message_shapes (cfg : DlConfig) (desc : String)
    (beh : Nat → SourceBehavior) (initial : String) (m : String)
    (h : (runDownload cfg desc beh initial).errorMsg = some m) :
    (m = timeoutMessage desc cfg ∨ ∃ cz, m = failMessage desc cz) ∧
    (∃ s t, timeoutMessage desc cfg = s ++ toString cfg.downloadTimeout ++ t) ∧
    (∃ s t, timeoutMessage desc cfg = s ++ toString cfg.downloadRetry ++ t) ∧
    (∀ cz, ∃ s t, failMessage desc cz = s ++ desc ++ t) ∧
    (∀ cz, ∃ s, failMessage desc cz = s ++ jsString cz) := by
  rw [runDownload] at h
  refine ⟨goDownload_msg_shape cfg desc beh cfg.downloadRetry 0 initial m h, ?_, ?_, ?_, ?_⟩
  · exact ⟨timeoutMsgPre desc, timeoutMsgPost cfg, rfl⟩
  · refine ⟨timeoutMsgPre desc ++ toString cfg.downloadTimeout ++ "ms for ", " times", ?_⟩
    rw [timeoutMessage, timeoutMsgPost]
    rw [strAppend_assoc (timeoutMsgPre desc ++ toString cfg.downloadTimeout ++ "ms for ")
      (toString cfg.downloadRetry) " times"]
    rw [strAppend_assoc (timeoutMsgPre desc ++ toString cfg.downloadTimeout) "ms for "
      (toString cfg.downloadRetry ++ " times")]
    rw [strAppend_assoc "ms for " (toString cfg.downloadRetry) " times"]
  · intro cz
    refine ⟨"Failed to download ", ": " ++ jsString cz, ?_⟩
    rw [failMessage]
    rw [strAppend_assoc ("Failed to download " ++ desc) ": " (jsString cz)]
  · intro cz
    exact ⟨"Failed to download " ++ desc ++ ": ", rfl⟩

/-- Concrete instance of C4 (amended), at a final attempt whose request was
refused with cause boom. -/
theorem failure_message_shapes_witness :
    (("Failed to download data: boom" = timeoutMessage "data" cfgOne ∨
      ∃ cz, "Failed to download data: boom" = failMessage "data" cz)) ∧
    (∃ s t, timeoutMessage "data" cfgOne = s ++ toString cfgOne.downloadTimeout ++ t) ∧
    (∃ s t, timeoutMessage "data" cfgOne = s ++ toString cfgOne.downloadRetry ++ t) ∧
    (∀ cz, ∃ s t, failMessage "data" cz = s ++ "data" ++ t) ∧
    (∀ cz, ∃ s, failMessage "data" cz = s ++ jsString cz) :=
  failure_message_shapes cfgOne "data" (fun _ => .requestError "boom" 7) ""
    "Failed to download data: boom" (by decide)

/-- C7: for every attempt that concludes (its trace exists), the finally
block close is the very last event, the writer handle ends closed with no
error ever raised by a close — including the success path, where the stream
already closed itself on flush and the finally close is a second,
tolerated, close. -/
theorem writer_always_closed (timeoutMs : Nat) (x : SourceBehavior)
    (tr : List AttemptEvent) (h : attemptTrace timeoutMs x = some tr) :
    tr.getLast? = some .finallyClose ∧
    runHandle tr = (.closedH, 0) ∧
    (tr.contains .streamClose = true → tr.contains .finallyClose = true) := by
  cases x with
  | requestError c dur =>
    simp only [attemptTrace] at h
    injection h with h2
    subst h2
    decide
  | noResponse => exact Option.noConfusion h
  | responds d body sofar =>
    simp only [attemptTrace] at h
    split at h <;> (injection h with h2; subst h2; decide)
  | respondsWriteError d c w =>
    simp only [attemptTrace] at h
    split at h <;> (injection h with h2; subst h2; decide)

/-- Concrete instance of C7: the success trace closes the handle twice with
no error. -/
theorem writer_always_closed_witness :
    ([AttemptEvent.openDest, .issueRequest, .armTimer, .streamClose, .timerClear,
        .finallyClose].getLast? = some .finallyClose) ∧
    runHandle [AttemptEvent.openDest, .issueRequest, .armTimer, .streamClose, .timerClear,
        .finallyClose] = (.closedH, 0) ∧
    ([AttemptEvent.openDest, .issueRequest, .armTimer, .streamClose, .timerClear,
        .finallyClose].contains .finallyClose = true) :=
  ⟨(writer_always_closed 100 (.responds 5 "b" "s") _ (by decide)).1,
   (writer_always_closed 100 (.responds 5 "b" "s") _ (by decide)).2.1,
   (writer_always_closed 100 (.responds 5 "b" "s") _ (by decide)).2.2 (by decide)⟩

/-- C8 (amended): every attempt of every download call passes the one pool
of keep-alive agents created when the module was loaded — the axios
argument object built for any attempt of any call carries the same pool —
and both its agents are configured with a socket timeout of exactly
60 * 60 * 1000 milliseconds (one hour). -/
theorem connection_pool_shared (url1 url2 : String) (i j : Nat) :
    (mkAxiosRequest url1 i).pool = (mkAxiosRequest url2 j).pool ∧
    (mkAxiosRequest url1 i).pool = thePool ∧
    thePool.httpAgent.timeout = 60 * 60 * 1000 ∧
    thePool.httpsAgent.timeout = 60 * 60 * 1000 :=
  ⟨rfl, rfl, rfl, rfl⟩

/-- C8 counterexample: the configured socket timeout, one hour, does not
exceed the duration of a two-hour transfer, so it is not a value far
exceeding any expected single transfer duration as claimed. -/
theorem connection_pool_counterexample :
    agentOptions.timeout = 60 * 60 * 1000 ∧ agentOptions.timeout < twoHourTransferMs := by
  decide

/-- C9: readFileLimited never rejects and returns the empty string when the
file does not exist or its open, stat or read fails; on a clean file it
returns the UTF-8 decoding of the first min(size, lengthLimit) bytes; and
whenever a handle was opened it was closed again. -/
theorem readFileLimited_spec (fsm : FsModel) (p : String) (l : Nat) :
    (fsm.files p = none →
      readFileLimited fsm p l = { result := "", openedHandle := false, closedHandle := false }) ∧
    (∀ f, fsm.files p = some f → f.openErr.isSome = true →
      readFileLimited fsm p l = { result := "", openedHandle := false, closedHandle := false }) ∧
    (∀ f, fsm.files p = some f → f.openErr = none → (f.statErr = true ∨ f.readErr = true) →
      readFileLimited fsm p l = { result := "", openedHandle := true, closedHandle := true }) ∧
    (∀ f, fsm.files p = some f → f.openErr = none → f.statErr = false → f.readErr = false →
      readFileLimited fsm p l =
        { result := utf8OfBytes (f.bytes.take (min f.bytes.length l)),
          openedHandle := true, closedHandle := true }) ∧
    ((readFileLimited fsm p l).openedHandle = true →
      (readFileLimited fsm p l).closedHandle = true) := by
  refine ⟨?_, ?_, ?_, ?_, ?_⟩
  · intro h
    simp [readFileLimited, h]
  · intro f hsome hopen
    rcases he : f.openErr with _ | e
    · rw [he] at hopen
      simp at hopen
    · simp [readFileLimited, hsome, he]
  · intro f hsome hopen hflags
    rcases hflags with hst | hrd
    · simp [readFileLimited, hsome, hopen, hst]
    · by_cases hst : f.statErr <;> simp [readFileLimited, hsome, hopen, hst, hrd]
  · intro f hsome hopen hst hrd
    simp [readFileLimited, hsome, hopen, hst, hrd]
  · have hcl : (readFileLimited fsm p l).closedHandle = (readFileLimited fsm p l).openedHandle := by
      rw [readFileLimited]
      rcases hfp : fsm.files p with _ | f
      · rfl
      · rcases he : f.openErr with _ | e
        · by_cases h1 : f.statErr <;> by_cases h2 : f.readErr <;> simp [he, h1, h2]
        · simp [he]
    intro h
    rw [hcl, h]

/-- Witness file system: one clean three-byte file. -/
def fsmW : FsModel :=
  { files := fun p =>
      if p = "present" then
        some { bytes := [104, 105, 106], openErr := none, statErr := false, readErr := false }
      else none }

/-- Concrete instance of C9: reading the three-byte file with limit two
yields the decoding of its first two bytes, with the handle closed. -/
theorem readFileLimited_spec_witness :
    readFileLimited fsmW "present" 2 =
      { result := utf8OfBytes ([104, 105, 106].take (min 3 2)),
        openedHandle := true, closedHandle := true } :=
  (readFileLimited_spec fsmW "present" 2).2.2.2.1
    { bytes := [104, 105, 106], openErr := none, statErr := false, readErr := false }
    (by rfl) rfl rfl rfl

/-- C10: doSafelyJoin rejects exactly when the normalization of the joined
segments starts with two dots; the escape check looks only at the joined
segments, never at the base (two different bases succeed or fail together);
on success the result is the base joined with the normalized child, and the
MappedPath overload joins the same child onto the inside and outside
bases. -/
theorem safelyJoinPath_spec (base base2 : String) (mp : MappedPath) (paths : List String) :
    (startsDotDot (normalizePath (joinList paths)) = true →
      ∃ e, doSafelyJoin base paths = .error e) ∧
    (startsDotDot (normalizePath (joinList paths)) = false →
      doSafelyJoin base paths = .ok (joinList [base, normalizePath (joinList paths)])) ∧
    (joinOk (doSafelyJoin base paths) = joinOk (doSafelyJoin base2 paths)) ∧
    (startsDotDot (normalizePath (joinList paths)) = false →
      safelyJoinPathMapped mp paths =
        .ok { outside := joinList [mp.outside, normalizePath (joinList paths)],
              inside := joinList [mp.inside, normalizePath (joinList paths)] }) := by
  refine ⟨?_, ?_, ?_, ?_⟩
  · intro h
    exact ⟨"Invalid path join: " ++ base, by simp [doSafelyJoin, h]⟩
  · intro h
    simp [doSafelyJoin, h]
  · by_cases h : startsDotDot (normalizePath (joinList paths)) = true
    · simp [doSafelyJoin, h, joinOk]
    · simp only [Bool.not_eq_true] at h
      simp [doSafelyJoin, h, joinOk]
  · intro h
    simp [safelyJoinPathMapped, doSafelyJoin, h]

/-- Concrete instance of C10: joining the segments a further b under a
plain base and under a mapped base. -/
theorem safelyJoinPath_spec_witness :
    doSafelyJoin "/base" ["a", "b"] =
      .ok (joinList ["/base", normalizePath (joinList ["a", "b"])]) ∧
    safelyJoinPathMapped { outside := "/out", inside := "/in" } ["a", "b"] =
      .ok { outside := joinList ["/out", normalizePath (joinList ["a", "b"])],
            inside := joinList ["/in", normalizePath (joinList ["a", "b"])] } :=
  ⟨(safelyJoinPath_spec "/base" "/other" { outside := "/out", inside := "/in" } ["a", "b"]).2.1
      (by decide),
   (safelyJoinPath_spec "/base" "/other" { outside := "/out", inside := "/in" } ["a", "b"]).2.2.2
      (by decide)⟩
